import Mathlib

/-!
Verification of `src/MusicScripts/Youtubeaudio/audiofeatures.py`.

The script is a four-stage pipeline: Fetcher (`download_audio`),
Acoustic Analyzer (`analyze_audio`), Harmony Analyzer (`extract_harmony`)
and a Result Writer (the `__main__` block).  External collaborators
(pytubefix, ffmpeg, librosa, music21, matplotlib) are black boxes; they
are modelled as oracle inputs (library outputs passed as arguments, an
environment of exit codes and raised exceptions for subprocesses).
Python floats are modelled as rationals, with an explicit NaN marker
where the code tests for NaN.
-/

namespace AudioFeatures

/-- A Python float as far as this script observes it: either NaN or a
numeric value (modelled as a rational). -/
inductive PyFloat where
  | nan : PyFloat
  | val (q : ℚ) : PyFloat
deriving DecidableEq

/-- `np.isnan`. -/
def PyFloat.isNanB : PyFloat → Bool
  | .nan => true
  | .val _ => false

/-- Python `int()` truncation toward zero on a rational. -/
def pyTrunc (q : ℚ) : ℤ :=
  if 0 ≤ q then ⌊q⌋ else ⌈q⌉

/-- Python `int(p)` on a float; the NaN branch raises in Python and is
only ever reached here behind the `not np.isnan(p)` filter, so the
junk value 0 is unreachable in the modelled code paths. -/
def PyFloat.pyInt : PyFloat → ℤ
  | .nan => 0
  | .val q => pyTrunc q

/-! ### Harmony Analyzer (`extract_harmony`)

`librosa.piptrack` returns two matrices `pitches`, `magnitudes` of the
same shape `(n_bins, n_frames)`.  We model their transposes jointly as a
frame-major list of rows, each row a list of `(pitch, magnitude)` pairs,
so that both the code's filter and the spec's filter can be expressed
over the same input. -/

/-- A piptrack output frame: the `(pitch, magnitude)` candidate pairs of
one time frame (one row of `pitches.T` zipped with `magnitudes.T`). -/
abbrev Frame := List (ℚ × ℚ)

/-- `pitch_threshold = 0.1`. -/
def pitch_threshold : ℚ := 1 / 10

/-- The Hz values the CODE keeps:
`np.concatenate([pitches.T[i][pitches.T[i] > pitch_threshold] for i in range(len(pitches.T))])`.
The boolean mask is `pitches.T[i] > pitch_threshold`: the PITCH value is
compared against the threshold (the `magnitudes` array is unused). -/
def keptHz (frames : List Frame) : List ℚ :=
  (frames.map (fun row => (row.map Prod.fst).filter (fun p => pitch_threshold < p))).flatten

/-- The Hz values the SPEC describes: for each time frame, keep exactly
those pitch candidates whose MAGNITUDE exceeds the threshold 0.1.
(Second component of each pair is the magnitude.) -/
def keptHzSpec (frames : List Frame) : List ℚ :=
  (frames.map (fun row =>
    (row.filter (fun pm => pitch_threshold < pm.2)).map Prod.fst)).flatten

/-- `detected_pitches`: surviving frequencies converted to fractional
(MIDI) pitch values by `librosa.hz_to_midi`, an external library
function kept abstract. -/
def detected_pitches (hz_to_midi : ℚ → PyFloat) (frames : List Frame) : List PyFloat :=
  (keptHz frames).map hz_to_midi

/-- `midi_pitches = [int(p) for p in detected_pitches if not np.isnan(p)]`. -/
def midi_pitches (detected : List PyFloat) : List ℤ :=
  (detected.filter (fun p => !p.isNanB)).map PyFloat.pyInt

/-- The numeric (non-NaN) values of a float list, in order. -/
def numericVals (l : List PyFloat) : List ℚ :=
  l.filterMap (fun p => match p with | .nan => none | .val q => some q)

/-- One record appended per chord by `extract_harmony`'s loop:
`{"Chord": commonName, "Root": root().name, "Quality": quality}`. -/
structure ChordGuess where
  Chord : String
  Root : String
  Quality : String
deriving DecidableEq

/-- The music21 black boxes used by `extract_harmony`: frequency→MIDI
conversion and the note-construction / `Stream` / `chordify` /
`getElementsByClass` grouping, abstracted as a function from the integer
pitch list to the emitted chord records, in emission order. -/
structure HarmonyLib where
  hz_to_midi : ℚ → PyFloat
  chordify : List ℤ → List ChordGuess

/-- The full chord list `analyzed_chords` the grouping stage emits for a
given piptrack output. -/
def analyzed_chords (lib : HarmonyLib) (frames : List Frame) : List ChordGuess :=
  lib.chordify (midi_pitches (detected_pitches lib.hz_to_midi frames))

/-- `extract_harmony`'s return value: `analyzed_chords[:10]`. -/
def extract_harmony (lib : HarmonyLib) (frames : List Frame) : List ChordGuess :=
  (analyzed_chords lib frames).take 10

/-! ### Acoustic Analyzer (`analyze_audio`) -/

/-- `np.max` on a (nonempty) list; 0 on the empty list, where numpy
raises instead. -/
def npMax : List ℚ → ℚ
  | [] => 0
  | h :: t => t.foldl max h

/-- `np.min` on a (nonempty) list; 0 on the empty list, where numpy
raises instead. -/
def npMin : List ℚ → ℚ
  | [] => 0
  | h :: t => t.foldl min h

/-- `np.mean` of a list. -/
def npMean (l : List ℚ) : ℚ := l.sum / l.length

/-- The librosa outputs `analyze_audio` consumes (the library is a black
box): `tempo` from `beat_track`, the per-frame `spectral_centroids` and
`spectral_bandwidth` rows, the `mfccs` matrix (one list per coefficient;
`n_mfcc=13` rows), and the frame-wise `rms` row. -/
structure AcousticLibOut where
  tempo : ℚ
  spectral_centroids : List ℚ
  spectral_bandwidth : List ℚ
  mfccs : List (List ℚ)
  rms : List ℚ

/-- The `results` dict built by `analyze_audio` (plot side effects are
not modelled; they do not feed the returned value). -/
structure AcousticResults where
  Tempo_BPM : ℚ
  Dynamic_Range : ℚ
  Spectral_Centroid_Mean : ℚ
  Spectral_Bandwidth_Mean : ℚ
  MFCCs_Mean : List ℚ
deriving DecidableEq

/-- `analyze_audio`'s returned record:
`Tempo_BPM = float(tempo)`, `Dynamic_Range = float(np.max(rms) - np.min(rms))`,
the two spectral means, and `MFCCs_Mean = mfccs.mean(axis=1).tolist()`. -/
def analyze_audio (o : AcousticLibOut) : AcousticResults where
  Tempo_BPM := o.tempo
  Dynamic_Range := npMax o.rms - npMin o.rms
  Spectral_Centroid_Mean := npMean o.spectral_centroids
  Spectral_Bandwidth_Mean := npMean o.spectral_bandwidth
  MFCCs_Mean := o.mfccs.map npMean

/-! ### Result Writer (`__main__` tail) -/

/-- The JSON values `json.dump` receives here. -/
inductive Json where
  | str (s : String) : Json
  | num (q : ℚ) : Json
  | arr (elems : List Json) : Json
  | obj (members : List (String × Json)) : Json

/-- The JSON object for the acoustic `results` dict, keys in insertion
order. -/
def AcousticResults.toJson (r : AcousticResults) : Json :=
  .obj [("Tempo_BPM", .num r.Tempo_BPM),
        ("Dynamic_Range", .num r.Dynamic_Range),
        ("Spectral_Centroid_Mean", .num r.Spectral_Centroid_Mean),
        ("Spectral_Bandwidth_Mean", .num r.Spectral_Bandwidth_Mean),
        ("MFCCs_Mean", .arr (r.MFCCs_Mean.map Json.num))]

/-- The JSON object for one chord record. -/
def ChordGuess.toJson (c : ChordGuess) : Json :=
  .obj [("Chord", .str c.Chord), ("Root", .str c.Root), ("Quality", .str c.Quality)]

/-- `results = {"Acoustic_Features": acoustic_results, "Harmony_Analysis": harmony_results}`. -/
def combined_results (a : AcousticResults) (h : List ChordGuess) : Json :=
  .obj [("Acoustic_Features", a.toJson),
        ("Harmony_Analysis", .arr (h.map ChordGuess.toJson))]

/-- Top-level keys of a JSON value (empty for non-objects). -/
def topLevelKeys : Json → List String
  | .obj kvs => kvs.map Prod.fst
  | _ => []

/-- `os.path.join(output_dir, 'analysis_results.json')` with
`output_dir = 'analysis_results'`. -/
def results_path : String := "analysis_results/analysis_results.json"

/-- `open(results_path, 'w')` + `json.dump`: a store update that
replaces whatever was at the fixed path. -/
def write_results (store : String → Option Json) (a : AcousticResults)
    (h : List ChordGuess) : String → Option Json :=
  fun p => if p = results_path then some (combined_results a h) else store p

/-! ### Fetcher (`download_audio`)

Filesystem and subprocess effects are made explicit: the filesystem is a
list of file paths plus a list of directories, and the external world
(pytubefix, ffmpeg) is an oracle `FetchEnv` saying which calls raise and
which exit status each ffmpeg run reports.  `subprocess.run` is called
without `check=True`, so a nonzero exit status raises nothing; only the
launch itself can raise (e.g. the binary is missing). -/

/-- A file path. -/
abbrev Path := String

/-- Whether `pat` is an initial run of `l` (structural, so that concrete
runs reduce definitionally). -/
def charsLead : List Char → List Char → Bool
  | [], _ => true
  | _ :: _, [] => false
  | p :: ps, c :: cs => p == c && charsLead ps cs

/-- Whether path `p` lies under directory `d` (i.e. starts with `d ++ "/"`). -/
def underDir (d p : Path) : Bool := charsLead (d ++ "/").toList p.toList

/-- Python `s.replace(' ', '')`: every space removed. -/
def pyRemoveSpaces (s : String) : String :=
  String.mk (s.toList.filter (fun c => c != ' '))

/-- Python `s.lower()` (per-character lowering; ASCII inputs here). -/
def pyLower (s : String) : String := String.mk (s.toList.map Char.toLower)

/-- The filesystem as the script observes it. -/
structure FS where
  files : List Path
  dirs : List Path
deriving DecidableEq

/-- `os.path.exists(d)` for the directory `d`. -/
def FS.dirExists (fs : FS) (d : Path) : Bool := fs.dirs.contains d

/-- `shutil.rmtree(d)`: drop the directory, everything under it, and
every file whose path lies under it. -/
def FS.rmtree (fs : FS) (d : Path) : FS where
  files := fs.files.filter (fun p => !underDir d p)
  dirs := fs.dirs.filter (fun x => !(x == d || underDir d x))

/-- `os.makedirs(d)`. -/
def FS.makedirs (fs : FS) (d : Path) : FS where
  files := fs.files
  dirs := d :: fs.dirs

/-- Creating (or overwriting) a file at `p`. -/
def FS.createFile (fs : FS) (p : Path) : FS where
  files := p :: fs.files
  dirs := fs.dirs

/-- `os.remove(p)`. -/
def FS.removeFile (fs : FS) (p : Path) : FS where
  files := fs.files.filter (fun x => !(x == p))
  dirs := fs.dirs

/-- The effectful steps of `download_audio` that can raise. -/
inductive FetchStep where
  | resolve : FetchStep
  | download : FetchStep
  | runConvert : FetchStep
  | runTrim : FetchStep
  | removeOriginal : FetchStep
deriving DecidableEq

/-- The oracle for one `download_audio` run: what the external world
does.  `defaultFilename` is `ys.default_filename`, `downloadPath` the
path `ys.download()` stores to, the exit fields the ffmpeg statuses, and
`raises` says which steps raise an exception. -/
structure FetchEnv where
  defaultFilename : String
  downloadPath : Path
  convertExit : ℤ
  trimExit : ℤ
  raises : FetchStep → Bool

/-- One recorded `subprocess.run` invocation: its argv and the exit
status the process reported. -/
structure FfmpegCall where
  argv : List String
  exitCode : ℤ
deriving DecidableEq

/-- A successful `download_audio` return: the returned path, the
subprocess invocations in order, and the resulting filesystem. -/
structure FetchOutcome where
  path : Path
  calls : List FfmpegCall
  fs : FS
deriving DecidableEq

/-- Python truthiness of an optional string argument: `None` and `''`
are falsy. -/
def pyTruthy : Option String → Bool
  | none => false
  | some s => !(s == "")

/-- `os.path.splitext(s)[0]` for a separator-free name: split at the
last dot, unless every character before it is a dot (then no split),
following CPython's `genericpath._splitext`. -/
def pySplitextRoot (s : String) : String :=
  let cs := s.toList
  match cs.reverse.findIdx? (fun c => c == '.') with
  | none => s
  | some j =>
    let i := cs.length - 1 - j
    if (cs.take i).any (fun c => c != '.') then String.mk (cs.take i) else s

/-- `download_audio(url, start_time, end_time)`.  Mirrors the source
line by line; `Except.error` is an uncaught Python exception. -/
def download_audio (start_time end_time : Option String) (env : FetchEnv)
    (fs0 : FS) : Except String FetchOutcome :=
  if env.raises .resolve then .error "resolve" else
  let filename := pyRemoveSpaces env.defaultFilename
  let output_dir : Path := "ytfolder"
  let fs1 := (if fs0.dirExists output_dir then fs0.rmtree output_dir else fs0).makedirs output_dir
  if env.raises .download then .error "download" else
  let output_path := env.downloadPath
  let fs2 := fs1.createFile output_path
  let mp3_filename := pySplitextRoot filename ++ ".mp3"
  let mp3_output_path := output_dir ++ "/" ++ mp3_filename
  if env.raises .runConvert then .error "ffmpeg convert" else
  let convertCall : FfmpegCall :=
    ⟨["ffmpeg", "-i", output_path, "-acodec", "mp3", mp3_output_path], env.convertExit⟩
  let fs3 := if env.convertExit == 0 then fs2.createFile mp3_output_path else fs2
  if pyTruthy start_time && pyTruthy end_time then
    if env.raises .runTrim then .error "ffmpeg trim" else
    let s := start_time.getD ""
    let e := end_time.getD ""
    let clip_output_path := output_dir ++ "/" ++ ("clip_" ++ mp3_filename)
    let trimCall : FfmpegCall :=
      ⟨["ffmpeg", "-ss", s, "-to", e, "-i", mp3_output_path, "-acodec", "mp3",
        clip_output_path], env.trimExit⟩
    let fs4 := if env.trimExit == 0 then fs3.createFile clip_output_path else fs3
    if env.raises .removeOriginal then .error "remove" else
    .ok ⟨clip_output_path, [convertCall, trimCall], fs4.removeFile output_path⟩
  else
    if env.raises .removeOriginal then .error "remove" else
    .ok ⟨mp3_output_path, [convertCall], fs3.removeFile output_path⟩

/-- The converted file's path for a given environment. -/
def mp3Path (env : FetchEnv) : Path :=
  "ytfolder" ++ "/" ++ (pySplitextRoot (pyRemoveSpaces env.defaultFilename) ++ ".mp3")

/-- The trimmed clip's path for a given environment. -/
def clipPath (env : FetchEnv) : Path :=
  "ytfolder" ++ "/" ++ ("clip_" ++ (pySplitextRoot (pyRemoveSpaces env.defaultFilename) ++ ".mp3"))

/-- The convert invocation for a given environment. -/
def convertCallOf (env : FetchEnv) : FfmpegCall :=
  ⟨["ffmpeg", "-i", env.downloadPath, "-acodec", "mp3", mp3Path env], env.convertExit⟩

/-- The trim invocation for a given environment and trim bounds. -/
def trimCallOf (env : FetchEnv) (s e : String) : FfmpegCall :=
  ⟨["ffmpeg", "-ss", s, "-to", e, "-i", mp3Path env, "-acodec", "mp3", clipPath env],
   env.trimExit⟩

/-- The filesystem after the wipe-and-recreate of `ytfolder` (lines
22–24). -/
def fsAfterWipe (fs0 : FS) : FS :=
  (if fs0.dirExists "ytfolder" then fs0.rmtree "ytfolder" else fs0).makedirs "ytfolder"

/-- The filesystem after the download and the convert invocation (the
converted file appears only when ffmpeg exited with status 0). -/
def fsAfterConvert (env : FetchEnv) (fs0 : FS) : FS :=
  if env.convertExit == 0
  then ((fsAfterWipe fs0).createFile env.downloadPath).createFile (mp3Path env)
  else (fsAfterWipe fs0).createFile env.downloadPath

/-- The filesystem after the trim invocation. -/
def fsAfterTrim (env : FetchEnv) (fs0 : FS) : FS :=
  if env.trimExit == 0
  then (fsAfterConvert env fs0).createFile (clipPath env)
  else fsAfterConvert env fs0

/-- The outcome of a successful untrimmed run. -/
def plainOutcome (env : FetchEnv) (fs0 : FS) : FetchOutcome :=
  ⟨mp3Path env, [convertCallOf env], (fsAfterConvert env fs0).removeFile env.downloadPath⟩

/-- The outcome of a successful trimmed run. -/
def trimOutcome (env : FetchEnv) (s e : String) (fs0 : FS) : FetchOutcome :=
  ⟨clipPath env, [convertCallOf env, trimCallOf env s e],
   (fsAfterTrim env fs0).removeFile env.downloadPath⟩

/-- Inversion for a successful `download_audio` run: none of the executed
steps raised, and the outcome is exactly the trimmed or untrimmed
outcome according to the truthiness of the two bounds. -/
theorem download_audio_ok_inv (st et : Option String) (env : FetchEnv) (fs0 : FS)
    (r : FetchOutcome) (h : download_audio st et env fs0 = .ok r) :
    env.raises .resolve = false ∧ env.raises .download = false ∧
    env.raises .runConvert = false ∧ env.raises .removeOriginal = false ∧
    (if (pyTruthy st && pyTruthy et) = true
     then env.raises .runTrim = false ∧ r = trimOutcome env (st.getD "") (et.getD "") fs0
     else r = plainOutcome env fs0) := by
  unfold download_audio at h
  cases hres : env.raises FetchStep.resolve with
  | true => rw [if_pos hres] at h; exact Except.noConfusion h
  | false =>
  rw [if_neg (by simp [hres])] at h
  cases hdl : env.raises FetchStep.download with
  | true => rw [if_pos hdl] at h; exact Except.noConfusion h
  | false =>
  rw [if_neg (by simp [hdl])] at h
  cases hcv : env.raises FetchStep.runConvert with
  | true => rw [if_pos hcv] at h; exact Except.noConfusion h
  | false =>
  rw [if_neg (by simp [hcv])] at h
  cases htt : (pyTruthy st && pyTruthy et) with
  | true =>
    rw [if_pos htt] at h
    cases htr : env.raises FetchStep.runTrim with
    | true => rw [if_pos htr] at h; exact Except.noConfusion h
    | false =>
    rw [if_neg (by simp [htr])] at h
    cases hrm : env.raises FetchStep.removeOriginal with
    | true => rw [if_pos hrm] at h; exact Except.noConfusion h
    | false =>
    rw [if_neg (by simp [hrm])] at h
    simp only [Except.ok.injEq] at h
    subst h
    exact ⟨rfl, rfl, rfl, rfl, ⟨rfl, rfl⟩⟩
  | false =>
    rw [if_neg (by simp [htt])] at h
    cases hrm : env.raises FetchStep.removeOriginal with
    | true => rw [if_pos hrm] at h; exact Except.noConfusion h
    | false =>
    rw [if_neg (by simp [hrm])] at h
    simp only [Except.ok.injEq] at h
    subst h
    exact ⟨rfl, rfl, rfl, rfl, rfl⟩

/-- A successful run always leaves the `ytfolder` directory present. -/
theorem download_audio_ok_dir (st et : Option String) (env : FetchEnv) (fs0 : FS)
    (r : FetchOutcome) (h : download_audio st et env fs0 = .ok r) :
    r.fs.dirExists "ytfolder" = true := by
  have hinv := download_audio_ok_inv st et env fs0 r h
  rcases hinv with ⟨-, -, -, -, hcase⟩
  by_cases htt : (pyTruthy st && pyTruthy et) = true
  · rw [if_pos htt] at hcase
    rw [hcase.2]
    simp only [trimOutcome, fsAfterTrim, fsAfterConvert, fsAfterWipe, FS.removeFile,
      FS.createFile, FS.makedirs, FS.dirExists, List.elem_iff]
    split_ifs <;> simp
  · rw [if_neg htt] at hcase
    rw [hcase]
    simp only [plainOutcome, fsAfterConvert, fsAfterWipe, FS.removeFile,
      FS.createFile, FS.makedirs, FS.dirExists, List.elem_iff]
    split_ifs <;> simp

/-! ### `__main__` prompt parsing -/

/-- `start_time = start_time_input if start_time_input.lower() != 'x' else None`. -/
def parse_time_input (s : String) : Option String :=
  if pyLower s == "x" then none else some s

/-! ### Generic fold-max / fold-min facts -/

theorem foldl_max_mem {α : Type} [LinearOrder α] (a : α) (l : List α) :
    l.foldl max a = a ∨ l.foldl max a ∈ l := by
  induction l generalizing a with
  | nil => exact Or.inl rfl
  | cons b t ih =>
    rcases ih (max a b) with hh | hh
    · rcases max_choice a b with hc | hc
      · exact Or.inl (by rw [List.foldl_cons, hh, hc])
      · exact Or.inr (by rw [List.foldl_cons, hh, hc]; exact List.mem_cons_self b t)
    · exact Or.inr (List.mem_cons_of_mem b hh)

theorem le_foldl_max {α : Type} [LinearOrder α] (a : α) (l : List α) :
    a ≤ l.foldl max a := by
  induction l generalizing a with
  | nil => exact le_refl a
  | cons b t ih => exact le_trans (le_max_left a b) (ih (max a b))

theorem le_foldl_max_of_mem {α : Type} [LinearOrder α] {x : α} {l : List α} (a : α)
    (hx : x ∈ l) : x ≤ l.foldl max a := by
  induction l generalizing a with
  | nil => cases hx
  | cons b t ih =>
    rcases List.mem_cons.mp hx with hh | hh
    · subst hh; exact le_trans (le_max_right a x) (le_foldl_max (max a x) t)
    · exact ih (max a b) hh

theorem foldl_min_mem {α : Type} [LinearOrder α] (a : α) (l : List α) :
    l.foldl min a = a ∨ l.foldl min a ∈ l := by
  induction l generalizing a with
  | nil => exact Or.inl rfl
  | cons b t ih =>
    rcases ih (min a b) with hh | hh
    · rcases min_choice a b with hc | hc
      · exact Or.inl (by rw [List.foldl_cons, hh, hc])
      · exact Or.inr (by rw [List.foldl_cons, hh, hc]; exact List.mem_cons_self b t)
    · exact Or.inr (List.mem_cons_of_mem b hh)

theorem foldl_min_le {α : Type} [LinearOrder α] (a : α) (l : List α) :
    l.foldl min a ≤ a := by
  induction l generalizing a with
  | nil => exact le_refl a
  | cons b t ih => exact le_trans (ih (min a b)) (min_le_left a b)

theorem foldl_min_le_of_mem {α : Type} [LinearOrder α] {x : α} {l : List α} (a : α)
    (hx : x ∈ l) : l.foldl min a ≤ x := by
  induction l generalizing a with
  | nil => cases hx
  | cons b t ih =>
    rcases List.mem_cons.mp hx with hh | hh
    · subst hh; exact le_trans (foldl_min_le (min a x) t) (min_le_right a x)
    · exact ih (min a b) hh

/-- `npMax` of a nonempty list is attained in the list. -/
theorem npMax_mem {l : List ℚ} (hl : l ≠ []) : npMax l ∈ l := by
  cases l with
  | nil => exact absurd rfl hl
  | cons h t =>
    rcases foldl_max_mem h t with hh | hh
    · rw [npMax, hh]; exact List.mem_cons_self h t
    · exact List.mem_cons_of_mem h (by rw [npMax]; exact hh)

/-- `npMax` bounds every element of the list. -/
theorem le_npMax {l : List ℚ} {x : ℚ} (hx : x ∈ l) : x ≤ npMax l := by
  cases l with
  | nil => cases hx
  | cons h t =>
    rcases List.mem_cons.mp hx with hh | hh
    · subst hh; exact le_foldl_max x t
    · exact le_foldl_max_of_mem h hh

/-- `npMin` of a nonempty list is attained in the list. -/
theorem npMin_mem {l : List ℚ} (hl : l ≠ []) : npMin l ∈ l := by
  cases l with
  | nil => exact absurd rfl hl
  | cons h t =>
    rcases foldl_min_mem h t with hh | hh
    · rw [npMin, hh]; exact List.mem_cons_self h t
    · exact List.mem_cons_of_mem h (by rw [npMin]; exact hh)

/-- `npMin` is below every element of the list. -/
theorem npMin_le {l : List ℚ} {x : ℚ} (hx : x ∈ l) : npMin l ≤ x := by
  cases l with
  | nil => cases hx
  | cons h t =>
    rcases List.mem_cons.mp hx with hh | hh
    · subst hh; exact foldl_min_le x t
    · exact foldl_min_le_of_mem h hh

/-! ### Claim theorems: analyzers and writer -/

/-- C2: the spec says each frame keeps exactly the pitch candidates whose
MAGNITUDE exceeds 0.1, but the code's mask `pitches.T[i] > pitch_threshold`
compares the PITCH values (the `magnitudes` array is unused, contradicting
the code's own `# Magnitude threshold` comment).  At a frame holding one
candidate of pitch 5 Hz and magnitude 0 the code keeps the candidate while
the spec's filter discards it. -/
theorem keptHz_compares_pitch_not_magnitude :
    keptHz [[(5, 0)]] = [5] ∧ keptHzSpec [[(5, 0)]] = [] := by
  constructor <;> norm_num [keptHz, keptHzSpec, pitch_threshold, List.filter_cons]

/-- C3: `extract_harmony` returns at most 10 chords, namely the first
`min 10 n` chords emitted by the grouping stage, in emission order. -/
theorem extract_harmony_first_ten (lib : HarmonyLib) (frames : List Frame) :
    (extract_harmony lib frames).length ≤ 10 ∧
    (extract_harmony lib frames).length = min 10 (analyzed_chords lib frames).length ∧
    ∀ (i : ℕ) (h1 : i < (extract_harmony lib frames).length)
      (h2 : i < (analyzed_chords lib frames).length),
      (extract_harmony lib frames).get ⟨i, h1⟩ = (analyzed_chords lib frames).get ⟨i, h2⟩ := by
  refine ⟨?_, ?_, ?_⟩
  · simp only [extract_harmony, List.length_take]
    omega
  · simp [extract_harmony, List.length_take]
  · intro i h1 h2
    simp [extract_harmony, List.getElem_take]

/-- A concrete harmony library: the grouping stage emits two chords. -/
def libW : HarmonyLib :=
  ⟨fun q => PyFloat.val q,
   fun _ => [⟨"major triad", "C", "major"⟩, ⟨"minor triad", "D", "minor"⟩]⟩

/-- C3 witness: instantiation at a concrete library and input. -/
theorem extract_harmony_first_ten_witness :
    (extract_harmony libW []).get ⟨0, by decide⟩ =
      (analyzed_chords libW []).get ⟨0, by decide⟩ :=
  (extract_harmony_first_ten libW []).2.2 0 (by decide) (by decide)

/-- C4: the record returned by `analyze_audio` carries exactly the five
fields of `AcousticResults`; when the MFCC matrix has 13 rows the
`MFCCs_Mean` sequence has 13 entries, each the mean of the corresponding
coefficient row; `Dynamic_Range` is the maximum minus the minimum of the
frame-wise RMS sequence (with `npMax`/`npMin` characterised as true
max/min on nonempty input). -/
theorem analyze_audio_fields (o : AcousticLibOut) (h13 : o.mfccs.length = 13) :
    (analyze_audio o).Tempo_BPM = o.tempo ∧
    (analyze_audio o).Dynamic_Range = npMax o.rms - npMin o.rms ∧
    (analyze_audio o).Spectral_Centroid_Mean = npMean o.spectral_centroids ∧
    (analyze_audio o).Spectral_Bandwidth_Mean = npMean o.spectral_bandwidth ∧
    (analyze_audio o).MFCCs_Mean.length = 13 ∧
    (∀ (i : ℕ) (hi : i < (analyze_audio o).MFCCs_Mean.length)
       (hi' : i < o.mfccs.length),
       (analyze_audio o).MFCCs_Mean.get ⟨i, hi⟩ = npMean (o.mfccs.get ⟨i, hi'⟩)) ∧
    (o.rms ≠ [] →
       npMax o.rms ∈ o.rms ∧ (∀ x ∈ o.rms, x ≤ npMax o.rms) ∧
       npMin o.rms ∈ o.rms ∧ (∀ x ∈ o.rms, npMin o.rms ≤ x)) := by
  refine ⟨rfl, rfl, rfl, rfl, ?_, ?_, ?_⟩
  · simp [analyze_audio, h13]
  · intro i hi hi'
    simp [analyze_audio, List.getElem_map]
  · intro hne
    exact ⟨npMax_mem hne, fun x hx => le_npMax hx, npMin_mem hne, fun x hx => npMin_le hx⟩

/-- A concrete librosa output with a 13-row MFCC matrix. -/
def oW : AcousticLibOut :=
  ⟨120, [1, 2], [3, 4],
   [[1], [2], [3], [4], [5], [6], [7], [8], [9], [10], [11], [12], [13]],
   [1, 3, 2]⟩

/-- C4 witness: instantiation at a concrete library output. -/
theorem analyze_audio_fields_witness :
    (analyze_audio oW).MFCCs_Mean.length = 13 ∧ npMax oW.rms ∈ oW.rms :=
  ⟨(analyze_audio_fields oW (by decide)).2.2.2.2.1,
   ((analyze_audio_fields oW (by decide)).2.2.2.2.2.2 (by decide)).1⟩

/-- C8: the merged report has exactly the two top-level keys
`Acoustic_Features` and `Harmony_Analysis`, and the writer stores it at
the fixed path `analysis_results/analysis_results.json`, replacing
whatever the store previously held there and touching no other path. -/
theorem write_results_fixed_path (store : String → Option Json)
    (a : AcousticResults) (h : List ChordGuess) :
    topLevelKeys (combined_results a h) = ["Acoustic_Features", "Harmony_Analysis"] ∧
    write_results store a h results_path = some (combined_results a h) ∧
    ∀ p : String, p ≠ results_path → write_results store a h p = store p := by
  refine ⟨rfl, ?_, ?_⟩
  · simp [write_results]
  · intro p hp
    simp [write_results, hp]

/-- C8 witness: instantiation at a concrete store holding a stale file at
the fixed path, and at a distinct path. -/
theorem write_results_fixed_path_witness :
    write_results (fun _ => some (Json.num 0)) ⟨0, 0, 0, 0, []⟩ [] results_path =
      some (combined_results ⟨0, 0, 0, 0, []⟩ []) ∧
    write_results (fun _ => some (Json.num 0)) ⟨0, 0, 0, 0, []⟩ [] "other.txt" =
      some (Json.num 0) :=
  ⟨(write_results_fixed_path (fun _ => some (Json.num 0)) ⟨0, 0, 0, 0, []⟩ []).2.1,
   (write_results_fixed_path (fun _ => some (Json.num 0)) ⟨0, 0, 0, 0, []⟩ []).2.2
     "other.txt" (by decide)⟩

/-- C9: dropping the NaN entries and truncating the survivors commute
into one pass: `midi_pitches` is exactly the truncation (toward zero) of
the numeric values of the detected pitch list, in order. -/
theorem midi_pitches_truncation (detected : List PyFloat) :
    midi_pitches detected = (numericVals detected).map pyTrunc := by
  induction detected with
  | nil => rfl
  | cons p t ih =>
    cases p with
    | nan => simpa [midi_pitches, numericVals, PyFloat.isNanB, List.filter_cons,
        List.filterMap_cons] using ih
    | val q =>
      simp only [midi_pitches, numericVals, PyFloat.isNanB, List.filter_cons,
        List.filterMap_cons, PyFloat.pyInt, List.map_cons] at ih ⊢
      simp [ih, PyFloat.pyInt]

/-! ### Claim theorems: Fetcher -/

/-- C1: with both bounds supplied (truthy), the run performs exactly one
extra transcoder invocation carrying the given start/end and returns the
distinct `clip_`-prefixed path; with both bounds omitted it performs no
trim invocation and returns the full converted file's path. -/
theorem download_audio_trim_once (env : FetchEnv) (fs0 : FS) (r rf : FetchOutcome)
    (s e : String) (hs : s ≠ "") (he : e ≠ "")
    (htrim : download_audio (some s) (some e) env fs0 = .ok r)
    (hfull : download_audio none none env fs0 = .ok rf) :
    r.path = clipPath env ∧
    r.calls = [convertCallOf env, trimCallOf env s e] ∧
    clipPath env ≠ mp3Path env ∧
    rf.path = mp3Path env ∧
    rf.calls = [convertCallOf env] := by
  obtain ⟨-, -, -, -, hc⟩ := download_audio_ok_inv (some s) (some e) env fs0 r htrim
  obtain ⟨-, -, -, -, hcf⟩ := download_audio_ok_inv none none env fs0 rf hfull
  have htt : (pyTruthy (some s) && pyTruthy (some e)) = true := by
    simp [pyTruthy, hs, he]
  rw [if_pos htt] at hc
  obtain ⟨-, hr⟩ := hc
  rw [if_neg (by simp [pyTruthy])] at hcf
  subst hr
  subst hcf
  refine ⟨rfl, rfl, ?_, rfl, rfl⟩
  intro heq
  have hlen := congrArg String.length heq
  have h5 : ("clip_" : String).length = 5 := rfl
  simp only [clipPath, mp3Path, String.length_append] at hlen
  omega

/-- A fully successful concrete environment. -/
def envGood : FetchEnv :=
  ⟨"My Song.m4a", "MySong.m4a", 0, 0, fun _ => false⟩

/-- C1 witness: instantiation at a concrete environment, with and
without trim bounds. -/
theorem download_audio_trim_once_witness :
    ∃ r rf : FetchOutcome,
      download_audio (some "3") (some "5") envGood ⟨[], []⟩ = .ok r ∧
      download_audio none none envGood ⟨[], []⟩ = .ok rf ∧
      r.path = clipPath envGood ∧
      r.calls = [convertCallOf envGood, trimCallOf envGood "3" "5"] ∧
      clipPath envGood ≠ mp3Path envGood ∧
      rf.path = mp3Path envGood ∧ rf.calls = [convertCallOf envGood] := by
  refine ⟨_, _, rfl, rfl, ?_⟩
  exact download_audio_trim_once envGood ⟨[], []⟩ _ _ "3" "5" (by decide) (by decide) rfl rfl

/-- C5 counterexample: the claim "there is no execution in which an
external-tool invocation fails and the Fetcher still returns a path
normally" is false: `subprocess.run` is called without `check=True`, so
an ffmpeg run reporting a nonzero exit status aborts nothing. -/
theorem download_audio_ok_despite_tool_failure :
    ¬ (∀ (st et : Option String) (env : FetchEnv) (fs0 : FS) (r : FetchOutcome),
        download_audio st et env fs0 = .ok r → ∀ c ∈ r.calls, c.exitCode = 0) := by
  intro hclaim
  have h := hclaim none none ⟨"song.m4a", "song.m4a", 1, 0, fun _ => false⟩ ⟨[], []⟩
      ⟨"ytfolder/song.mp3",
       [⟨["ffmpeg", "-i", "song.m4a", "-acodec", "mp3", "ytfolder/song.mp3"], 1⟩],
       ⟨[], ["ytfolder"]⟩⟩ rfl
  have h1 := h ⟨["ffmpeg", "-i", "song.m4a", "-acodec", "mp3", "ytfolder/song.mp3"], 1⟩
      (List.mem_singleton.mpr rfl)
  exact absurd h1 (by decide)

/-- C5 (amended): any step that raises an exception — resolving or
downloading the stream, launching either ffmpeg invocation, or removing
the original — propagates uncaught, so a normal return implies none of
the executed steps raised.  (A launched tool that merely exits nonzero
is not a raising step; see the counterexample.) -/
theorem download_audio_exception_propagation (st et : Option String) (env : FetchEnv)
    (fs0 : FS) (r : FetchOutcome) (h : download_audio st et env fs0 = .ok r) :
    env.raises .resolve = false ∧ env.raises .download = false ∧
    env.raises .runConvert = false ∧ env.raises .removeOriginal = false ∧
    ((pyTruthy st && pyTruthy et) = true → env.raises .runTrim = false) := by
  obtain ⟨h1, h2, h3, h4, hc⟩ := download_audio_ok_inv st et env fs0 r h
  refine ⟨h1, h2, h3, h4, fun htt => ?_⟩
  rw [if_pos htt] at hc
  exact hc.1

/-- C5 witness: instantiation at a concrete successful run. -/
theorem download_audio_exception_propagation_witness :
    envGood.raises FetchStep.resolve = false ∧ envGood.raises FetchStep.download = false :=
  ⟨(download_audio_exception_propagation none none envGood ⟨[], []⟩ _ rfl).1,
   (download_audio_exception_propagation none none envGood ⟨[], []⟩ _ rfl).2.1⟩

/-- C6: after any successful run whose tool invocations succeeded, the
pre-conversion download has been deleted while the converted (and, when
trimming was requested, trimmed) copies remain on disk.  (The download
path is distinct from the output paths in any real run: `ys.download()`
stores outside `ytfolder`.) -/
theorem download_audio_cleanup (st et : Option String) (env : FetchEnv) (fs0 : FS)
    (r : FetchOutcome)
    (hcv : env.convertExit = 0) (htr : env.trimExit = 0)
    (hd1 : env.downloadPath ≠ mp3Path env) (hd2 : env.downloadPath ≠ clipPath env)
    (h : download_audio st et env fs0 = .ok r) :
    env.downloadPath ∉ r.fs.files ∧ mp3Path env ∈ r.fs.files ∧
    ((pyTruthy st && pyTruthy et) = true → clipPath env ∈ r.fs.files) := by
  obtain ⟨-, -, -, -, hc⟩ := download_audio_ok_inv st et env fs0 r h
  by_cases htt : (pyTruthy st && pyTruthy et) = true
  · rw [if_pos htt] at hc
    obtain ⟨-, hr⟩ := hc
    subst hr
    refine ⟨?_, ?_, fun _ => ?_⟩ <;>
      simp [trimOutcome, fsAfterTrim, fsAfterConvert, fsAfterWipe, FS.removeFile,
        FS.createFile, FS.makedirs, List.mem_filter, hcv, htr,
        Ne.symm hd1, Ne.symm hd2]
    exact ⟨hd2, hd1⟩
  · rw [if_neg htt] at hc
    subst hc
    refine ⟨?_, ?_, fun htt' => absurd htt' htt⟩ <;>
      simp [plainOutcome, fsAfterConvert, fsAfterWipe, FS.removeFile,
        FS.createFile, FS.makedirs, List.mem_filter, hcv, Ne.symm hd1]
    exact hd1

/-- C6 witness: instantiation at a concrete trimmed run. -/
theorem download_audio_cleanup_witness :
    "MySong.m4a" ∉ ((trimOutcome envGood "3" "5" ⟨[], []⟩).fs).files ∧
    mp3Path envGood ∈ ((trimOutcome envGood "3" "5" ⟨[], []⟩).fs).files :=
  ⟨(download_audio_cleanup (some "3") (some "5") envGood ⟨[], []⟩ _
      rfl rfl (by decide) (by decide) rfl).1,
   (download_audio_cleanup (some "3") (some "5") envGood ⟨[], []⟩ _
      rfl rfl (by decide) (by decide) rfl).2.1⟩

/-- C10: a bound that is `None` or the empty string is falsy, so no trim
invocation happens and the full converted path is returned; and the
interactive skip sentinel `x` is matched after lowercasing, so any casing
of the letter x maps the bound to `None` and anything else is kept
verbatim. -/
theorem download_audio_empty_bound_like_none (st et : Option String) (env : FetchEnv)
    (fs0 : FS) (r : FetchOutcome)
    (hempty : st = none ∨ st = some "" ∨ et = none ∨ et = some "")
    (h : download_audio st et env fs0 = .ok r) :
    (r.path = mp3Path env ∧ r.calls = [convertCallOf env]) ∧
    (∀ s : String, pyLower s = "x" → parse_time_input s = none) ∧
    (∀ s : String, pyLower s ≠ "x" → parse_time_input s = some s) := by
  obtain ⟨-, -, -, -, hc⟩ := download_audio_ok_inv st et env fs0 r h
  have htt : (pyTruthy st && pyTruthy et) = false := by
    rcases hempty with h1 | h1 | h1 | h1 <;> subst h1 <;> simp [pyTruthy]
  rw [if_neg (by simp [htt])] at hc
  subst hc
  refine ⟨⟨rfl, rfl⟩, fun s hstr => ?_, fun s hstr => ?_⟩
  · simp [parse_time_input, hstr]
  · simp [parse_time_input, hstr]

/-- C10 witness: instantiation at an empty-string start bound and the
two casings of the skip sentinel. -/
theorem download_audio_empty_bound_like_none_witness :
    parse_time_input "X" = none ∧ parse_time_input "3" = some "3" :=
  ⟨(download_audio_empty_bound_like_none (some "") (some "7") envGood ⟨[], []⟩ _
      (Or.inr (Or.inl rfl)) rfl).2.1 "X" (by decide),
   (download_audio_empty_bound_like_none (some "") (some "7") envGood ⟨[], []⟩ _
      (Or.inr (Or.inl rfl)) rfl).2.2 "3" (by decide)⟩

/-! ### C7: the working directory wipe is destructive-idempotent -/

/-- The files lying under the `ytfolder` working directory. -/
def ytFiles (fs : FS) : List Path := fs.files.filter (fun p => underDir "ytfolder" p)

theorem charsLead_self_append (p rest : List Char) : charsLead p (p ++ rest) = true := by
  induction p with
  | nil => rfl
  | cons c cs ih => simp [charsLead, ih]

/-- Both output paths lie under the working directory. -/
theorem underDir_prefixed (x : String) :
    underDir "ytfolder" ("ytfolder" ++ "/" ++ x) = true := by
  have h : ("ytfolder" ++ "/" ++ x).toList = ("ytfolder" ++ "/").toList ++ x.toList := rfl
  unfold underDir
  rw [h]
  exact charsLead_self_append _ _

theorem filter_yt_sub_nil {l : List Path} (q : Path → Bool)
    (h : l.filter (fun p => underDir "ytfolder" p) = []) :
    (l.filter q).filter (fun p => underDir "ytfolder" p) = [] := by
  rw [List.filter_eq_nil_iff] at h ⊢
  intro a ha
  exact h a (List.mem_filter.mp ha).1

theorem filter_not_yt (l : List Path) :
    (l.filter (fun p => !underDir "ytfolder" p)).filter
      (fun p => underDir "ytfolder" p) = [] := by
  rw [List.filter_eq_nil_iff]
  intro a ha
  have h2 := (List.mem_filter.mp ha).2
  simp at h2
  simp [h2]

/-- After the wipe-and-recreate step, no file remains under the working
directory (provided the incoming state either had the directory — so it
got wiped — or had nothing under it). -/
theorem ytFiles_fsAfterWipe (fs0 : FS)
    (h0 : fs0.dirExists "ytfolder" = true ∨ ytFiles fs0 = []) (q : Path → Bool) :
    ((fsAfterWipe fs0).files.filter q).filter (fun p => underDir "ytfolder" p) = [] := by
  unfold fsAfterWipe FS.makedirs FS.rmtree
  by_cases hd : fs0.dirExists "ytfolder" = true
  · rw [if_pos hd]
    exact filter_yt_sub_nil q (filter_not_yt fs0.files)
  · rw [if_neg hd]
    rcases h0 with h0 | h0
    · exact absurd h0 hd
    · unfold ytFiles at h0
      exact filter_yt_sub_nil q h0

theorem filter_chain (cands : List Path) (dp : Path) (rest : List Path)
    (hrest : (rest.filter (fun p => !(p == dp))).filter
        (fun p => underDir "ytfolder" p) = []) :
    ((cands ++ dp :: rest).filter (fun p => !(p == dp))).filter
        (fun p => underDir "ytfolder" p) =
      (cands.filter (fun p => !(p == dp))).filter (fun p => underDir "ytfolder" p) := by
  rw [List.filter_append, List.filter_cons]
  simp only [beq_self_eq_true, Bool.not_true, Bool.false_eq_true, if_false,
    List.filter_append, hrest, List.append_nil]

/-- The files a successful run leaves under the working directory,
determined by the run's own arguments and environment alone. -/
def ytRunOutputs (trimmed : Bool) (env : FetchEnv) : List Path :=
  (((if trimmed && (env.trimExit == 0) then [clipPath env] else []) ++
    (if env.convertExit == 0 then [mp3Path env] else [])).filter
      (fun p => !(p == env.downloadPath))).filter (fun p => underDir "ytfolder" p)

/-- What a successful run leaves under `ytfolder` does not depend on the
incoming filesystem (provided it is not in the inconsistent state of
holding `ytfolder/...` files without the directory). -/
theorem ytFiles_after_run (st et : Option String) (env : FetchEnv) (fs0 : FS)
    (r : FetchOutcome)
    (h0 : fs0.dirExists "ytfolder" = true ∨ ytFiles fs0 = [])
    (h : download_audio st et env fs0 = .ok r) :
    ytFiles r.fs = ytRunOutputs (pyTruthy st && pyTruthy et) env := by
  obtain ⟨-, -, -, -, hc⟩ := download_audio_ok_inv st et env fs0 r h
  have hwipe := ytFiles_fsAfterWipe fs0 h0 (fun p => !(p == env.downloadPath))
  by_cases htt : (pyTruthy st && pyTruthy et) = true
  · rw [if_pos htt] at hc
    obtain ⟨-, hr⟩ := hc
    subst hr
    rw [htt]
    have hfiles : (fsAfterTrim env fs0).files =
        ((if env.trimExit == 0 then [clipPath env] else []) ++
         (if env.convertExit == 0 then [mp3Path env] else [])) ++
        env.downloadPath :: (fsAfterWipe fs0).files := by
      unfold fsAfterTrim fsAfterConvert FS.createFile
      split_ifs <;> rfl
    unfold ytFiles trimOutcome FS.removeFile
    dsimp only
    rw [hfiles, filter_chain _ _ _ hwipe]
    unfold ytRunOutputs
    simp only [Bool.true_and]
  · have hbf : (pyTruthy st && pyTruthy et) = false := by
      cases hval : (pyTruthy st && pyTruthy et)
      · rfl
      · exact absurd hval htt
    rw [if_neg htt] at hc
    subst hc
    rw [hbf]
    have hfiles : (fsAfterConvert env fs0).files =
        ([] ++ (if env.convertExit == 0 then [mp3Path env] else [])) ++
        env.downloadPath :: (fsAfterWipe fs0).files := by
      unfold fsAfterConvert FS.createFile
      split_ifs <;> rfl
    unfold ytFiles plainOutcome FS.removeFile
    dsimp only
    rw [hfiles, filter_chain _ _ _ hwipe]
    unfold ytRunOutputs
    simp

/-- C7: the wipe-and-recreate of the working directory is
destructive-idempotent: after running the Fetcher twice in a row, the
working directory holds exactly what the second run alone (from a fresh
filesystem) would leave — the second run's own outputs — so any prior
run's outputs there are lost. -/
theorem download_audio_rerun_destructive (st1 et1 st2 et2 : Option String)
    (env1 env2 : FetchEnv) (fs0 : FS) (r1 r2 rA : FetchOutcome)
    (h1 : download_audio st1 et1 env1 fs0 = .ok r1)
    (h2 : download_audio st2 et2 env2 r1.fs = .ok r2)
    (hA : download_audio st2 et2 env2 ⟨[], []⟩ = .ok rA) :
    ytFiles r2.fs = ytFiles rA.fs ∧
    ytFiles r2.fs = ytRunOutputs (pyTruthy st2 && pyTruthy et2) env2 := by
  have hd := download_audio_ok_dir st1 et1 env1 fs0 r1 h1
  have e2 := ytFiles_after_run st2 et2 env2 r1.fs r2 (Or.inl hd) h2
  have eA := ytFiles_after_run st2 et2 env2 ⟨[], []⟩ rA (Or.inr rfl) hA
  exact ⟨e2.trans eA.symm, e2⟩

/-- C7 witness: two concrete back-to-back runs (the first leaving both a
converted file and an unrelated stale file) against the second run alone
from a fresh filesystem. -/
theorem download_audio_rerun_destructive_witness :
    ytFiles (FS.mk ["ytfolder/MySong.mp3", "stale.txt"] ["ytfolder"]) =
      ytFiles (FS.mk ["ytfolder/MySong.mp3"] ["ytfolder"]) :=
  (download_audio_rerun_destructive none none none none envGood envGood
      ⟨["stale.txt"], []⟩ _ _ _ rfl rfl rfl).1

end AudioFeatures
